import Mathlib

/-!
# Verification of the task-manager temporal/analytics core

Shallow embedding of the temporal classification and analytics logic of the
task-manager repository:

* `getTaskStatus`, `sortTasksByDueDate` — `src/frontend/src/utils/dateUtils.ts`
* `calculateStreak`, `getDateRange`, the reports aggregator — the backend
  reports route (embedded in `src/SYSTEM_OVERVIEW.md`)
* `validateForm` — the routine form validator (`src/unnamed/part_009`)
* the express-validator chain of `POST /api/routines`
  (`src/backend/src/routes/routines.js`)

Calendar dates are modelled as `Int` day numbers (days since the Unix epoch).
The source compares dates either as ISO `YYYY-MM-DD` strings (whose
lexicographic order coincides with chronological order) or as millisecond
timestamps of date-only values; both orders agree with the order on day
numbers, and exact-day differences divide evenly so `Math.ceil` is the
identity there.
-/

namespace TaskManager

/-! ## Temporal status classifier (`src/frontend/src/utils/dateUtils.ts`) -/

/-- The five status buckets of `TaskStatus` in `src/frontend/src/types/Task`. -/
inductive TaskStatus where
  | completed
  | overdue
  | dueToday
  | dueSoon
  | future
deriving DecidableEq, Repr

/-- `getTaskStatus` from `dateUtils.ts`, with the ambient `new Date()` made an
explicit `today` parameter.  `dueDate`/`today` are the day numbers of the
date-only strings the source compares; `due < today` string comparison is day
order, and for whole-day differences `Math.ceil(diffTime / 86400000)` is the
exact integer difference. -/
def getTaskStatus (dueDate : Int) (completed : Bool) (today : Int) : TaskStatus :=
  if completed then .completed
  else if dueDate < today then .overdue
  else if dueDate = today then .dueToday
  else if dueDate - today ≤ 3 then .dueSoon
  else .future

/-- Rendering of the spec's classification table (`spec.md` §4.2 / claim C1):
completed wins, then bucket by `diffDays = dueDate − today`. -/
def classifySpec (dueDate : Int) (completed : Bool) (today : Int) : TaskStatus :=
  if completed then .completed
  else if dueDate - today < 0 then .overdue
  else if dueDate - today = 0 then .dueToday
  else if 0 < dueDate - today ∧ dueDate - today ≤ 3 then .dueSoon
  else .future

/-! ## `sortTasksByDueDate` (`src/frontend/src/utils/dateUtils.ts`)

The source builds a copy `[...tasks]` and calls `.sort` on the copy; the
caller's array is never the receiver of the in-place sort.  We model the
statefulness by explicit state passing: the embedding returns both the array
the function returns and the post-call state of the argument array. -/

/-- The fields of a task that the sort comparator reads; `dueDate` is the
`getTime()` value of the task's due date. -/
structure SortTask where
  completed : Bool
  dueDate : Int
deriving DecidableEq, Repr

/-- The comparator passed to `.sort` in `sortTasksByDueDate`. -/
def sortCmp (ascending : Bool) (a b : SortTask) : Int :=
  if a.completed && !b.completed then 1
  else if !a.completed && b.completed then -1
  else if ascending then a.dueDate - b.dueDate else b.dueDate - a.dueDate

/-- Stable insertion of `a` into `l` under a JS comparator: `a` goes before the
first element `b` with `cmp a b < 0` (JS keeps `a` after `b` when
`cmp a b ≥ 0`). -/
def jsInsert (cmp : SortTask → SortTask → Int) (a : SortTask) : List SortTask → List SortTask
  | [] => [a]
  | b :: l => if cmp a b < 0 then a :: b :: l else b :: jsInsert cmp a l

/-- A stable comparator sort modelling `Array.prototype.sort` (stable since
ES2019). -/
def jsSort (cmp : SortTask → SortTask → Int) : List SortTask → List SortTask
  | [] => []
  | a :: l => jsInsert cmp a (jsSort cmp l)

/-- `sortTasksByDueDate` from `dateUtils.ts`.  First component: the array the
function returns (the sorted spread copy); second component: the state of the
caller's `tasks` array after the call (the in-place `.sort` acts on the copy,
so the argument is returned unchanged). -/
def sortTasksByDueDate (tasks : List SortTask) (ascending : Bool) : List SortTask × List SortTask :=
  let copy := tasks
  (jsSort (sortCmp ascending) copy, tasks)

/-! ## Productivity streak calculator (backend reports route)

`calculateStreak` receives the task rows `{completed, updatedAt}`; a task's
completion-signal day is the calendar day of `updatedAt` (`toDateString`),
modelled as an `Int` day number.  The source's ambient `new Date()` /
`Date.now() - 86400000` become the explicit `today` parameter. -/

/-- The deduplicated list of completion-signal days:
`tasks.filter(completed).map(day of updatedAt).sort().filter(first-occurrence)`.
The JS `.sort()` orders the `toDateString` strings alphabetically; only set
membership of the result is ever consulted, and `List.dedup` keeps first
occurrences exactly like the `indexOf`-based filter, so the sort is dropped. -/
def completionDates (tasks : List (Bool × Int)) : List Int :=
  ((tasks.filter (·.1)).map (·.2)).dedup

/-- The `while (completionDates.includes(currentDate))` loop of
`calculateStreak`: count consecutive days downward from `cursor` while they
are in `dates`.  `fuel` bounds the recursion; the run can visit at most
`dates.length` distinct days, so any fuel beyond that reproduces the loop. -/
def countRun (dates : List Int) (cursor : Int) : Nat → Nat
  | 0 => 0
  | fuel + 1 => if cursor ∈ dates then countRun dates (cursor - 1) fuel + 1 else 0

/-- `calculateStreak` from the backend reports route, with `today` injected. -/
def calculateStreak (tasks : List (Bool × Int)) (today : Int) : Nat :=
  if tasks.isEmpty then 0
  else
    let dates := completionDates tasks
    if dates.isEmpty then 0
    else
      let yesterday := today - 1
      if today ∉ dates ∧ yesterday ∉ dates then 0
      else
        let check := if today ∈ dates then today else yesterday
        countRun dates check (dates.length + 1)

/-- `k` is the length of the maximal run of consecutive days in `s` ending at
`c` and extending backwards: `c, c−1, …, c−(k−1)` are all in `s` and `c−k` is
not. -/
def IsMaxConsecRun (s : List Int) (c : Int) (k : Nat) : Prop :=
  (∀ i : Nat, i < k → c - (i : Int) ∈ s) ∧ c - (k : Int) ∉ s

/-! ## JS dates and the proleptic-Gregorian civil calendar

A JS `Date` is modelled as a day number (days since 1970-01-01) plus the
milliseconds elapsed within that day; its timestamp (`getTime`) is the obvious
linear combination.  `daysFromCivil`/`civilFromDays` convert between day
numbers and civil `(year, month 1–12, day)` triples; `daysFromCivil` is linear
in `day`, which reproduces exactly the JS `Date` field normalisation (e.g.
February 31 rolls over into March). -/

structure JsDate where
  days : Int
  ms : Int
deriving DecidableEq, Repr

/-- `getTime()` of a date: milliseconds since the epoch. -/
def JsDate.toMs (d : JsDate) : Int :=
  d.days * 86400000 + d.ms

/-- Day number of the civil date `(y, m, d)` with `m ∈ [1,12]` (`d` may lie
outside the month and extends linearly, as in JS field normalisation).
Divisions are floor divisions (Lean's `Int` `/` by a positive literal). -/
def daysFromCivil (y m d : Int) : Int :=
  let y' := if m ≤ 2 then y - 1 else y
  let era := y' / 400
  let yoe := y' - era * 400
  let mp := (m + 9) % 12
  let doy := (153 * mp + 2) / 5 + d - 1
  let doe := yoe * 365 + yoe / 4 - yoe / 100 + doy
  era * 146097 + doe - 719468

/-- Civil `(year, month 1–12, day)` triple of a day number. -/
def civilFromDays (z : Int) : Int × Int × Int :=
  let z' := z + 719468
  let era := z' / 146097
  let doe := z' - era * 146097
  let yoe := (doe - doe / 1460 + doe / 36524 - doe / 146096) / 365
  let y := yoe + era * 400
  let doy := doe - (365 * yoe + yoe / 4 - yoe / 100)
  let mp := (5 * doy + 2) / 153
  let d := doy - (153 * mp + 2) / 5 + 1
  let m := mp + (if mp < 10 then 3 else -9)
  (y + (if m ≤ 2 then 1 else 0), m, d)

/-- JS `getMonth()`: the 0-based month of a date. -/
def JsDate.jsGetMonth (dt : JsDate) : Int :=
  (civilFromDays dt.days).2.1 - 1

/-- JS `setMonth(v)`: set the 0-based month to `v` (rolling into neighbouring
years for `v` outside `[0,11]`), keeping the day-of-month field and the
time of day; an out-of-range day-of-month then normalises forward. -/
def JsDate.jsSetMonth (dt : JsDate) (v : Int) : JsDate :=
  let c := civilFromDays dt.days
  { days := daysFromCivil (c.1 + v / 12) (v % 12 + 1) c.2.2, ms := dt.ms }

/-- JS `setDate(v)`: set the day-of-month field to `v`, normalising through
the calendar (`daysFromCivil` is linear in the day field). -/
def JsDate.jsSetDate (dt : JsDate) (v : Int) : JsDate :=
  let c := civilFromDays dt.days
  { days := daysFromCivil c.1 c.2.1 v, ms := dt.ms }

/-- JS `getDate()`: the day-of-month of a date. -/
def JsDate.jsGetDate (dt : JsDate) : Int :=
  (civilFromDays dt.days).2.2

/-- The report period selector (`?period=`); `all` also covers the `default`
branch of the source's `switch`. -/
inductive Period where
  | today
  | week
  | month
  | all
deriving DecidableEq, Repr

/-- `getDateRange` from the backend reports route, with `new Date()` made the
explicit `now` parameter.  Returns `(startDate, endDate)`. -/
def getDateRange (period : Period) (now : JsDate) : JsDate × JsDate :=
  match period with
  | .today => ({ days := now.days, ms := 0 }, now)
  | .week => (now.jsSetDate (now.jsGetDate - 7), now)
  | .month => (now.jsSetMonth (now.jsGetMonth - 1), now)
  | .all => ({ days := daysFromCivil 2000 1 1, ms := 0 }, now)

/-- Rendering of the window resolution as claim C7 states it:
`today ↦ [midnight(today), now]`, `week ↦ [now − 7 days, now]`,
`month ↦ [now − 30 days, now]`, `all ↦` the epoch-like sentinel
(2000-01-01). -/
def getDateRangeSpec (period : Period) (now : JsDate) : JsDate × JsDate :=
  match period with
  | .today => ({ days := now.days, ms := 0 }, now)
  | .week => ({ days := now.days - 7, ms := now.ms }, now)
  | .month => ({ days := now.days - 30, ms := now.ms }, now)
  | .all => ({ days := daysFromCivil 2000 1 1, ms := 0 }, now)

/-! ## Reports aggregator (backend reports route, `GET /api/reports`)

The persistence layer is modelled as the caller-supplied list of the user's
task rows; the two prisma queries of the route are the corresponding
filter/projection of that list.  Rate arithmetic is over `ℚ` (JS numbers on
these small integer operands are exact until the final rounding). -/

inductive Priority where
  | LOW
  | MEDIUM
  | HIGH
  | URGENT
deriving DecidableEq, Repr

/-- A task row as the reports route reads it: `completed`, `priority`,
`categoryId`, the date-only day number of `dueDate` (if any), the creation
instant, and the calendar day of `updatedAt` (its `toDateString`). -/
structure RTask where
  completed : Bool
  priority : Priority
  categoryId : Option Nat
  dueDateDay : Option Int
  createdAt : JsDate
  updatedAtDay : Int
deriving DecidableEq, Repr

/-- The prisma `baseFilter`: `createdAt` between `startDate` and `endDate`
(inclusive, timestamp comparison) plus the optional `categoryId` equality
filter (`none` models an absent or `'all'` query value). -/
def filterTasks (tasks : List RTask) (startDate endDate : JsDate)
    (categoryId : Option Nat) : List RTask :=
  tasks.filter fun t =>
    decide (startDate.toMs ≤ t.createdAt.toMs) &&
    decide (t.createdAt.toMs ≤ endDate.toMs) &&
    match categoryId with
    | none => true
    | some c => decide (t.categoryId = some c)

/-- One `summary` block: `{total, completed, completionRate}`. -/
structure SummaryBlock where
  total : Nat
  completed : Nat
  completionRate : ℚ
deriving DecidableEq, Repr

/-- Steps 2–3 of the aggregation over a task list: totals and the
zero-guarded completion rate. -/
def mkSummaryBlock (l : List RTask) : SummaryBlock :=
  { total := l.length
    completed := (l.filter (·.completed)).length
    completionRate :=
      if l.length > 0 then ((l.filter (·.completed)).length : ℚ) / (l.length : ℚ) * 100
      else 0 }

/-- The `overview` object of the report payload (the routine counts of the
source are omitted: no claim concerns them). -/
structure Overview where
  totalTasks : Nat
  completedTasks : Nat
  pendingTasks : Nat
  completionRate : ℚ
  overdueTasks : Nat
  productiveDays : Nat
  currentStreak : Nat
deriving DecidableEq, Repr

/-- The per-priority counts of the report payload. -/
structure PriorityDistribution where
  URGENT : Nat
  HIGH : Nat
  MEDIUM : Nat
  LOW : Nat
deriving DecidableEq, Repr

/-- The report payload fields the claims concern (`categoryDistribution` and
`topCategories` are pure projections of the same filtered list and are not
needed by any claim). -/
structure Report where
  overview : Overview
  priorityDistribution : PriorityDistribution
  summaryToday : SummaryBlock
  summaryWeek : SummaryBlock
  summaryMonth : SummaryBlock
  period : Period
  dateRange : JsDate × JsDate
deriving DecidableEq, Repr

/-- The reports route handler's computation, with the store snapshot
(`allUserTasks`), the query parameters and `now` as explicit inputs.

* `tasks` is the `baseFilter` query (window by creation instant + category);
* `overview.completionRate` carries the source's `Math.round(x*100)/100`
  (JS `Math.round` is `⌊x + 1/2⌋`, Mathlib's `round`);
* `overdueTasks` compares date-only strings, i.e. day numbers, against today;
* `productiveDays` counts distinct `updatedAt` days of completed tasks of the
  **filtered** list, while `currentStreak` runs over the full history. -/
def buildReport (allUserTasks : List RTask) (period : Period)
    (categoryId : Option Nat) (now : JsDate) : Report :=
  let range := getDateRange period now
  let tasks := filterTasks allUserTasks range.1 range.2 categoryId
  let totalTasks := tasks.length
  let completedTasks := (tasks.filter (·.completed)).length
  let pendingTasks := totalTasks - completedTasks
  let completionRate : ℚ :=
    if totalTasks > 0 then (completedTasks : ℚ) / (totalTasks : ℚ) * 100 else 0
  let overdueTasks :=
    (tasks.filter fun t =>
      !t.completed &&
      match t.dueDateDay with
      | some d => decide (d < now.days)
      | none => false).length
  let productiveDays := ((tasks.filter (·.completed)).map (·.updatedAtDay)).dedup.length
  let currentStreak :=
    calculateStreak (allUserTasks.map fun t => (t.completed, t.updatedAtDay)) now.days
  let todayTasks := tasks.filter fun t => decide (t.createdAt.days = now.days)
  let weekTasks := tasks.filter fun t => decide (now.toMs - 7 * 86400000 ≤ t.createdAt.toMs)
  let monthTasks := tasks.filter fun t => decide (now.toMs - 30 * 86400000 ≤ t.createdAt.toMs)
  { overview :=
      { totalTasks := totalTasks
        completedTasks := completedTasks
        pendingTasks := pendingTasks
        completionRate := (round (completionRate * 100) : ℚ) / 100
        overdueTasks := overdueTasks
        productiveDays := productiveDays
        currentStreak := currentStreak }
    priorityDistribution :=
      { URGENT := (tasks.filter fun t => decide (t.priority = .URGENT)).length
        HIGH := (tasks.filter fun t => decide (t.priority = .HIGH)).length
        MEDIUM := (tasks.filter fun t => decide (t.priority = .MEDIUM)).length
        LOW := (tasks.filter fun t => decide (t.priority = .LOW)).length }
    summaryToday := mkSummaryBlock todayTasks
    summaryWeek := mkSummaryBlock weekTasks
    summaryMonth := mkSummaryBlock monthTasks
    period := period
    dateRange := range }

/-! ## Routine schedule validation

Two validators exist in the source: the routine form's `validateForm`
(`src/unnamed/part_009`) and the express-validator chain of
`POST /api/routines` (`src/backend/src/routes/routines.js`). -/

/-- The recurrence type select of the routine form (`RecurrenceType`). -/
inductive RecurrenceType where
  | DAILY
  | WEEKLY
  | MONTHLY
  | CUSTOM
deriving DecidableEq, Repr

/-- The fields of the routine form's `formData` that `validateForm` reads
(`title`, `recurrenceType`, `daysOfWeek`, `dayOfMonth`, `interval`); the
remaining fields are never consulted by validation. -/
structure RoutineFormData where
  title : String
  recurrenceType : RecurrenceType
  daysOfWeek : List String
  dayOfMonth : Int
  interval : Int
  time : String
deriving DecidableEq, Repr

/-- The `FormErrors` object `validateForm` builds (the `general` key is never
set by validation). -/
structure FormErrors where
  title : Option String
  daysOfWeek : Option String
  dayOfMonth : Option String
  interval : Option String
deriving DecidableEq, Repr

/-- JS `s.trim()` yields the empty string exactly when every character of `s`
is whitespace (`!formData.title.trim()` / `.trim().notEmpty()` in the
source). -/
def trimmedEmpty (s : String) : Bool :=
  decide (s.toList.dropWhile Char.isWhitespace = [])

/-- `validateForm` from the routine form (`src/unnamed/part_009`): the error
object and the returned boolean (`true` iff no error key was set). -/
def validateForm (f : RoutineFormData) : FormErrors × Bool :=
  let errs : FormErrors :=
    { title := if trimmedEmpty f.title then some "Title is required" else none
      daysOfWeek :=
        if f.recurrenceType = .WEEKLY ∧ f.daysOfWeek = [] then
          some "Select at least one day for weekly routine"
        else none
      dayOfMonth :=
        if f.recurrenceType = .MONTHLY ∧ (f.dayOfMonth < 1 ∨ f.dayOfMonth > 31) then
          some "Day of month must be between 1 and 31"
        else none
      interval :=
        if f.recurrenceType = .CUSTOM ∧ f.interval < 1 then
          some "Interval must be at least 1"
        else none }
  (errs, decide (errs.title = none ∧ errs.daysOfWeek = none ∧
    errs.dayOfMonth = none ∧ errs.interval = none))

/-- The `schedule` object of a `POST /api/routines` request body. -/
structure ScheduleReq where
  recurrenceType : String
  interval : Option Int
  daysOfWeek : Option (List String)
  dayOfMonth : Option Int
  time : Option String
deriving DecidableEq, Repr

/-- The express-validator chain of `POST /api/routines`: the first failing
rule's message, or `none` when the request passes validation.  The
`daysOfWeek` rule only checks array-ness, which the typed embedding makes
vacuous; no rule mentions `schedule.time`. -/
def validateRoutineCreate (title : String) (priority : String) (s : ScheduleReq) :
    Option String :=
  if trimmedEmpty title then some "Title is required"
  else if priority ∉ ["LOW", "MEDIUM", "HIGH", "URGENT"] then some "Invalid priority"
  else if s.recurrenceType ∉ ["DAILY", "WEEKLY", "MONTHLY", "CUSTOM"] then
    some "Invalid recurrence type"
  else if (match s.interval with | some i => decide (i < 1) | none => false) then
    some "Interval must be at least 1"
  else if (match s.dayOfMonth with | some d => decide (d < 1 ∨ d > 31) | none => false) then
    some "Day of month must be between 1 and 31"
  else none

/-- Rendering of the spec's `time` requirement (claim C8): a 24-hour `HH:MM`
string — two digits, a colon, two digits, hours below 24, minutes below 60. -/
def isValidTime24 (t : String) : Bool :=
  match t.toList with
  | [h1, h2, c, m1, m2] =>
      c = ':' && h1.isDigit && h2.isDigit && m1.isDigit && m2.isDigit &&
      decide ((h1.toNat - 48) * 10 + (h2.toNat - 48) < 24) &&
      decide ((m1.toNat - 48) * 10 + (m2.toNat - 48) < 60)
  | _ => false

end TaskManager

namespace TaskManager

/-! ## Correctness lemmas for the streak loop -/

theorem countRun_mem (dates : List Int) :
    ∀ (fuel : Nat) (c : Int) (i : Nat), i < countRun dates c fuel → c - (i : Int) ∈ dates := by
  intro fuel
  induction fuel with
  | zero => intro c i h; simp [countRun] at h
  | succ fuel ih =>
      intro c i h
      unfold countRun at h
      by_cases hc : c ∈ dates
      · simp [hc] at h
        cases i with
        | zero => simp only [Int.natCast_zero, sub_zero]; exact hc
        | succ j =>
            have hj : j < countRun dates (c - 1) fuel := by omega
            have := ih (c - 1) j hj
            have heq : c - ((j : Int) + 1) = c - 1 - (j : Int) := by ring
            push_cast
            rw [heq]
            exact this
      · simp [hc] at h

theorem countRun_stop (dates : List Int) :
    ∀ (fuel : Nat) (c : Int), countRun dates c fuel < fuel →
      c - (countRun dates c fuel : Int) ∉ dates := by
  intro fuel
  induction fuel with
  | zero => intro c h; omega
  | succ fuel ih =>
      intro c h
      unfold countRun at h ⊢
      by_cases hc : c ∈ dates
      · simp only [hc, if_pos] at h ⊢
        have hlt : countRun dates (c - 1) fuel < fuel := by omega
        have := ih (c - 1) hlt
        have heq : c - ((countRun dates (c - 1) fuel : Int) + 1) =
            c - 1 - (countRun dates (c - 1) fuel : Int) := by ring
        push_cast
        rw [heq]
        exact this
      · rw [if_neg hc]
        simp only [Int.natCast_zero, sub_zero]
        exact hc

theorem run_length_le (dates : List Int) (c : Int) (k : Nat)
    (h : ∀ i : Nat, i < k → c - (i : Int) ∈ dates) : k ≤ dates.length := by
  have hinj : Function.Injective (fun i : Nat => c - (i : Int)) := by
    intro i j hij
    simp only at hij
    omega
  have hsub : (Finset.range k).image (fun i : Nat => c - (i : Int)) ⊆ dates.toFinset := by
    intro x hx
    rcases Finset.mem_image.mp hx with ⟨i, hi, rfl⟩
    exact List.mem_toFinset.mpr (h i (Finset.mem_range.mp hi))
  have hcard := Finset.card_le_card hsub
  rw [Finset.card_image_of_injective _ hinj, Finset.card_range] at hcard
  exact hcard.trans dates.toFinset_card_le

theorem countRun_isMaxConsecRun (dates : List Int) (c : Int) :
    IsMaxConsecRun dates c (countRun dates c (dates.length + 1)) := by
  refine ⟨fun i hi => countRun_mem dates _ c i hi, ?_⟩
  have hle : countRun dates c (dates.length + 1) ≤ dates.length :=
    run_length_le dates c _ (fun i hi => countRun_mem dates _ c i hi)
  exact countRun_stop dates (dates.length + 1) c (by omega)

/-- C2: the streak calculator filters to completed events, deduplicates their
completion-signal days, returns `0` when that set is empty or contains neither
`today` nor `today − 1`, and otherwise returns the length of the maximal run
of consecutive days in the set ending at `today` (when present) or at
`today − 1`. -/
theorem calculateStreak_correct (tasks : List (Bool × Int)) (today : Int) :
    (completionDates tasks = [] → calculateStreak tasks today = 0) ∧
    (today ∉ completionDates tasks → today - 1 ∉ completionDates tasks →
      calculateStreak tasks today = 0) ∧
    (today ∈ completionDates tasks ∨ today - 1 ∈ completionDates tasks →
      IsMaxConsecRun (completionDates tasks)
        (if today ∈ completionDates tasks then today else today - 1)
        (calculateStreak tasks today)) := by
  by_cases htask : tasks.isEmpty
  · rcases List.isEmpty_iff.mp htask with rfl
    refine ⟨fun _ => rfl, fun _ _ => rfl, fun h => ?_⟩
    simp [completionDates] at h
  · by_cases hd : (completionDates tasks).isEmpty
    · have hdnil := List.isEmpty_iff.mp hd
      refine ⟨fun _ => ?_, fun _ _ => ?_, fun h => ?_⟩
      · simp [calculateStreak, htask, hd]
      · simp [calculateStreak, htask, hd]
      · rw [hdnil] at h; simp at h
    · by_cases hmem : today ∉ completionDates tasks ∧ today - 1 ∉ completionDates tasks
      · refine ⟨fun h0 => ?_, fun _ _ => ?_, fun h => ?_⟩
        · exact absurd h0 (List.isEmpty_iff.not.mp hd)
        · simp [calculateStreak, htask, hd, hmem]
        · rcases h with h | h
          · exact absurd h hmem.1
          · exact absurd h hmem.2
      · have hrun : calculateStreak tasks today =
            countRun (completionDates tasks)
              (if today ∈ completionDates tasks then today else today - 1)
              ((completionDates tasks).length + 1) := by
          simp [calculateStreak, htask, hd, hmem]
        refine ⟨fun h0 => absurd h0 (List.isEmpty_iff.not.mp hd), fun h1 h2 => ?_, fun _ => ?_⟩
        · exact absurd ⟨h1, h2⟩ hmem
        · rw [hrun]
          exact countRun_isMaxConsecRun _ _

/-! ## Claim theorems for the classifier and the sorter -/

/-- C1: `getTaskStatus` classifies exactly as the spec's five-bucket table:
`completed = true` always yields `completed`; otherwise with
`diffDays = dueDate − today`, `diffDays < 0 ↦ overdue`, `= 0 ↦ due-today`,
`0 < diffDays ≤ 3 ↦ due-soon`, `> 3 ↦ future` — one bucket in every case. -/
theorem getTaskStatus_eq_classifySpec (dueDate : Int) (completed : Bool) (today : Int) :
    getTaskStatus dueDate completed today = classifySpec dueDate completed today := by
  unfold getTaskStatus classifySpec
  split_ifs <;> first | rfl | omega

/-- C10: `sortTasksByDueDate` does not mutate its input — the argument array is
unchanged after the call — and the returned array is a newly built permutation
of the input's elements. -/
theorem sortTasksByDueDate_preserves_input (tasks : List SortTask) (ascending : Bool) :
    (sortTasksByDueDate tasks ascending).2 = tasks ∧
      ((sortTasksByDueDate tasks ascending).1).Perm tasks := by
  refine ⟨rfl, ?_⟩
  show (jsSort (sortCmp ascending) tasks).Perm tasks
  induction tasks with
  | nil => simp [jsSort]
  | cons a l ih =>
      have h : ∀ (x : SortTask) (m : List SortTask),
          (jsInsert (sortCmp ascending) x m).Perm (x :: m) := by
        intro x m
        induction m with
        | nil => simp [jsInsert]
        | cons b m ihm =>
            unfold jsInsert
            split
            · exact List.Perm.refl _
            · exact (ihm.cons b).trans (List.Perm.swap x b m)
      exact (h a (jsSort (sortCmp ascending) l)).trans (ih.cons a)

/-! ## Counting and rate invariants of the aggregator -/

theorem mkSummaryBlock_completed_le (l : List RTask) :
    (mkSummaryBlock l).completed ≤ (mkSummaryBlock l).total :=
  List.length_filter_le _ l

theorem mkSummaryBlock_rate_bounds (l : List RTask) :
    0 ≤ (mkSummaryBlock l).completionRate ∧ (mkSummaryBlock l).completionRate ≤ 100 := by
  unfold mkSummaryBlock
  dsimp only
  split_ifs with h
  · have hc : ((l.filter (·.completed)).length : ℚ) ≤ (l.length : ℚ) := by
      exact_mod_cast List.length_filter_le _ l
    have hpos : (0 : ℚ) < (l.length : ℚ) := by exact_mod_cast h
    constructor
    · positivity
    · have hdiv : ((l.filter (·.completed)).length : ℚ) / (l.length : ℚ) ≤ 1 :=
        (div_le_one hpos).mpr hc
      nlinarith
  · norm_num

theorem rounded_rate_bounds (q : ℚ) (h0 : 0 ≤ q) (h1 : q ≤ 100) :
    0 ≤ (round (q * 100) : ℚ) / 100 ∧ (round (q * 100) : ℚ) / 100 ≤ 100 := by
  have hr0 : (0 : ℤ) ≤ round (q * 100) := by
    rw [round_eq]
    exact Int.le_floor.mpr (by push_cast; linarith)
  have hr1 : round (q * 100) ≤ 10000 := by
    rw [round_eq]
    have : (q * 100 + 1 / 2 : ℚ) < 10001 := by linarith
    exact Int.lt_add_one_iff.mp (Int.floor_lt.mpr (by push_cast; linarith))
  constructor
  · positivity
  · rw [div_le_iff₀ (by norm_num : (0:ℚ) < 100)]
    calc ((round (q * 100) : ℤ) : ℚ) ≤ (10000 : ℚ) := by exact_mod_cast hr1
      _ = 100 * 100 := by norm_num

/-- C5: in every report, `completed + pending = total` in the overview, and
every completion rate — the rounded overview rate and the three summary
rates — lies in `[0, 100]`, including when the window is empty (the rate is
guarded to `0`, never a division by zero). -/
theorem buildReport_counts_and_rates (tasks : List RTask) (period : Period)
    (categoryId : Option Nat) (now : JsDate) :
    ((buildReport tasks period categoryId now).overview.completedTasks +
        (buildReport tasks period categoryId now).overview.pendingTasks =
      (buildReport tasks period categoryId now).overview.totalTasks) ∧
    (0 ≤ (buildReport tasks period categoryId now).overview.completionRate ∧
      (buildReport tasks period categoryId now).overview.completionRate ≤ 100) ∧
    (∀ b ∈ [(buildReport tasks period categoryId now).summaryToday,
            (buildReport tasks period categoryId now).summaryWeek,
            (buildReport tasks period categoryId now).summaryMonth],
      b.completed ≤ b.total ∧ 0 ≤ b.completionRate ∧ b.completionRate ≤ 100) := by
  set l := filterTasks tasks (getDateRange period now).1 (getDateRange period now).2 categoryId
    with hl
  refine ⟨?_, ?_, ?_⟩
  · show (l.filter (·.completed)).length +
      (l.length - (l.filter (·.completed)).length) = l.length
    have := List.length_filter_le (·.completed) l
    omega
  · show 0 ≤ (round ((if l.length > 0 then
        ((l.filter (·.completed)).length : ℚ) / (l.length : ℚ) * 100 else 0) * 100) : ℚ) / 100 ∧ _
    have hq : 0 ≤ (if l.length > 0 then
          ((l.filter (·.completed)).length : ℚ) / (l.length : ℚ) * 100 else 0) ∧
        (if l.length > 0 then
          ((l.filter (·.completed)).length : ℚ) / (l.length : ℚ) * 100 else 0) ≤ 100 := by
      split_ifs with h
      · have hc : ((l.filter (·.completed)).length : ℚ) ≤ (l.length : ℚ) := by
          exact_mod_cast List.length_filter_le _ l
        have hpos : (0 : ℚ) < (l.length : ℚ) := by exact_mod_cast h
        have hdiv : ((l.filter (·.completed)).length : ℚ) / (l.length : ℚ) ≤ 1 :=
          (div_le_one hpos).mpr hc
        constructor
        · positivity
        · nlinarith
      · norm_num
    exact rounded_rate_bounds _ hq.1 hq.2
  · intro b hb
    simp only [List.mem_cons, List.mem_singleton, List.not_mem_nil, or_false] at hb
    rcases hb with rfl | rfl | rfl <;>
      exact ⟨mkSummaryBlock_completed_le _, mkSummaryBlock_rate_bounds _⟩

/-- C9: in every report, only incomplete tasks (with a due date strictly
before today) are counted overdue, so
`overview.overdueTasks ≤ overview.pendingTasks`. -/
theorem buildReport_overdue_le_pending (tasks : List RTask) (period : Period)
    (categoryId : Option Nat) (now : JsDate) :
    (buildReport tasks period categoryId now).overview.overdueTasks ≤
      (buildReport tasks period categoryId now).overview.pendingTasks := by
  set l := filterTasks tasks (getDateRange period now).1 (getDateRange period now).2 categoryId
    with hl
  show (l.filter fun t =>
      !t.completed &&
      match t.dueDateDay with
      | some d => decide (d < now.days)
      | none => false).length ≤ l.length - (l.filter (·.completed)).length
  have hmono : (l.filter fun t =>
      !t.completed &&
      match t.dueDateDay with
      | some d => decide (d < now.days)
      | none => false).length ≤ (l.filter fun t => !t.completed).length := by
    rw [← List.countP_eq_length_filter, ← List.countP_eq_length_filter]
    refine List.countP_mono_left fun t _ h => ?_
    exact (Bool.and_elim_left h)
  have hsplit : (l.filter fun t => !t.completed).length + (l.filter (·.completed)).length
      = l.length := by
    rw [← List.countP_eq_length_filter, ← List.countP_eq_length_filter]
    have hfun : (fun t : RTask => !t.completed) = fun a : RTask => decide ¬a.completed = true := by
      funext a
      cases a.completed <;> rfl
    rw [hfun]
    have h := List.length_eq_countP_add_countP (p := (·.completed)) (l := l)
    omega
  omega

/-! ## Window scoping of `productiveDays`, `currentStreak` and `summary` -/

/-- C3 counterexample: one task completed ten days ago.  A `week` report and
an `all` report over the same history return different
`overview.productiveDays` (0 vs 1): `productiveDays` is computed over the
window-filtered tasks, not the whole history. -/
theorem productiveDays_depends_on_period :
    (buildReport [⟨true, .MEDIUM, none, none, ⟨20517, 0⟩, 20517⟩] .all none
        ⟨20527, 0⟩).overview.productiveDays ≠
      (buildReport [⟨true, .MEDIUM, none, none, ⟨20517, 0⟩, 20517⟩] .week none
        ⟨20527, 0⟩).overview.productiveDays := by
  decide

/-- C3 amended: `overview.currentStreak` is computed over the user's entire
task history and is identical across any two report requests that differ only
in `period` and/or `categoryId`; `overview.productiveDays` is instead computed
over the period/category-filtered task list. -/
theorem currentStreak_window_independent (tasks : List RTask) (now : JsDate)
    (p₁ p₂ : Period) (c₁ c₂ : Option Nat) :
    ((buildReport tasks p₁ c₁ now).overview.currentStreak =
        (buildReport tasks p₂ c₂ now).overview.currentStreak) ∧
    ((buildReport tasks p₁ c₁ now).overview.currentStreak =
        calculateStreak (tasks.map fun t => (t.completed, t.updatedAtDay)) now.days) ∧
    ((buildReport tasks p₁ c₁ now).overview.productiveDays =
        (((filterTasks tasks (getDateRange p₁ now).1 (getDateRange p₁ now).2 c₁).filter
            (·.completed)).map (·.updatedAtDay)).dedup.length) :=
  ⟨rfl, rfl, rfl⟩

/-- C4 counterexample: one completed task created three days ago.  The
`summary.week` block of an `all` report and of a `today` report over the same
history differ (total 1 vs 0): the summary blocks are computed from the
already-period-filtered task list, not from fixed windows alone. -/
theorem summary_depends_on_period :
    (buildReport [⟨true, .MEDIUM, none, none, ⟨20524, 0⟩, 20524⟩] .all none
        ⟨20527, 0⟩).summaryWeek ≠
      (buildReport [⟨true, .MEDIUM, none, none, ⟨20524, 0⟩, 20524⟩] .today none
        ⟨20527, 0⟩).summaryWeek := by
  decide

/-- C4 amended: each `summary` block aggregates its own fixed sub-window
(creation day = today / trailing 7 days / trailing 30 days) **intersected
with** the top-level period/category filter, so the blocks vary with the
requested `period` rather than being identical across it. -/
theorem summary_blocks_are_intersections (tasks : List RTask) (period : Period)
    (categoryId : Option Nat) (now : JsDate) :
    ((buildReport tasks period categoryId now).summaryToday =
      mkSummaryBlock (tasks.filter fun t =>
        decide (t.createdAt.days = now.days) &&
        (decide ((getDateRange period now).1.toMs ≤ t.createdAt.toMs) &&
          decide (t.createdAt.toMs ≤ (getDateRange period now).2.toMs) &&
          match categoryId with
          | none => true
          | some c => decide (t.categoryId = some c)))) ∧
    ((buildReport tasks period categoryId now).summaryWeek =
      mkSummaryBlock (tasks.filter fun t =>
        decide (now.toMs - 7 * 86400000 ≤ t.createdAt.toMs) &&
        (decide ((getDateRange period now).1.toMs ≤ t.createdAt.toMs) &&
          decide (t.createdAt.toMs ≤ (getDateRange period now).2.toMs) &&
          match categoryId with
          | none => true
          | some c => decide (t.categoryId = some c)))) ∧
    ((buildReport tasks period categoryId now).summaryMonth =
      mkSummaryBlock (tasks.filter fun t =>
        decide (now.toMs - 30 * 86400000 ≤ t.createdAt.toMs) &&
        (decide ((getDateRange period now).1.toMs ≤ t.createdAt.toMs) &&
          decide (t.createdAt.toMs ≤ (getDateRange period now).2.toMs) &&
          match categoryId with
          | none => true
          | some c => decide (t.categoryId = some c)))) :=
  ⟨congrArg mkSummaryBlock (List.filter_filter _ _),
    congrArg mkSummaryBlock (List.filter_filter _ _),
    congrArg mkSummaryBlock (List.filter_filter _ _)⟩

/-! ## Period window resolution -/

theorem daysFromCivil_linear (y m d k : Int) :
    daysFromCivil y m (d + k) = daysFromCivil y m d + k := by
  unfold daysFromCivil
  dsimp only
  split_ifs <;> omega

/-- C7 counterexample: at `now` = 2026-03-15 (day 20527) the `month` window
starts one *calendar* month earlier (2026-02-15, day 20499), not 30 days
earlier (2026-02-13, day 20497) as the claim states. -/
theorem month_window_not_thirty_days :
    (getDateRange .month ⟨20527, 0⟩).1.days = 20499 ∧
      (getDateRangeSpec .month ⟨20527, 0⟩).1.days = 20497 ∧
      getDateRange .month ⟨20527, 0⟩ ≠ getDateRangeSpec .month ⟨20527, 0⟩ := by
  refine ⟨by decide, by decide, by decide⟩

/-- C7 amended: `today` resolves to `[midnight(now), now]`, `week` to
`[now − 7 days, now]`, `all` to the epoch-like sentinel 2000-01-01; `month`
resolves to the same day-of-month and time one *calendar* month earlier
(with the JS year borrow at January), not to `now − 30 days`.  `(y, m, d)` is
the civil triple of `now`'s day; the two roundtrip hypotheses hold for every
`now` (the witness discharges them at a concrete date). -/
theorem getDateRange_resolved (now : JsDate) (y m d : Int)
    (hc : civilFromDays now.days = (y, m, d))
    (hrt : daysFromCivil y m d = now.days)
    (hm : 1 ≤ m ∧ m ≤ 12) :
    getDateRange .today now = ({ days := now.days, ms := 0 }, now) ∧
    getDateRange .week now = ({ days := now.days - 7, ms := now.ms }, now) ∧
    getDateRange .all now = ({ days := daysFromCivil 2000 1 1, ms := 0 }, now) ∧
    getDateRange .month now =
      ({ days := daysFromCivil (if m = 1 then y - 1 else y) (if m = 1 then 12 else m - 1) d,
         ms := now.ms }, now) := by
  refine ⟨rfl, ?_, rfl, ?_⟩
  · show (now.jsSetDate (now.jsGetDate - 7), now) = _
    unfold JsDate.jsSetDate JsDate.jsGetDate
    rw [hc]
    dsimp only
    have hlin := daysFromCivil_linear y m d (-7)
    have : daysFromCivil y m (d - 7) = now.days - 7 := by
      rw [show d - 7 = d + (-7) by ring, hlin, hrt]
      ring
    rw [this]
  · show (now.jsSetMonth (now.jsGetMonth - 1), now) = _
    unfold JsDate.jsSetMonth JsDate.jsGetMonth
    rw [hc]
    dsimp only
    by_cases h1 : m = 1
    · subst h1
      norm_num
      rw [show y + (-1 : Int) = y - 1 by ring]
    · have hdiv : (m - 1 - 1) / 12 = 0 := by omega
      have hmod : (m - 1 - 1) % 12 = m - 2 := by omega
      rw [hdiv, hmod, if_neg h1, if_neg h1]
      norm_num
      congr 1
      omega

/-- C7 witness: the amended window resolution applied at `now` = 2026-03-15
(day 20527), whose civil triple is `(2026, 3, 15)`. -/
theorem getDateRange_resolved_witness :
    getDateRange .week ⟨20527, 0⟩ = ({ days := 20520, ms := 0 }, ⟨20527, 0⟩) ∧
      getDateRange .month ⟨20527, 0⟩ = ({ days := 20499, ms := 0 }, ⟨20527, 0⟩) := by
  have h := getDateRange_resolved ⟨20527, 0⟩ 2026 3 15 (by decide) (by decide) (by decide)
  exact ⟨h.2.1.trans (by decide), h.2.2.2.trans (by decide)⟩

/-! ## Schedule validation -/

/-- C6: the routine form validator rejects a `WEEKLY` schedule with no
selected weekday with the empty-weekly-days error, rejects `MONTHLY` with
`dayOfMonth = 32` with the day-of-month range error, rejects `CUSTOM` with
`interval = 0` with the interval error, and accepts `DAILY` with no extra
schedule fields required (only the title must be non-blank). -/
theorem validateForm_schedule_rules (f : RoutineFormData) :
    (f.recurrenceType = .WEEKLY → f.daysOfWeek = [] →
      (validateForm f).1.daysOfWeek = some "Select at least one day for weekly routine" ∧
        (validateForm f).2 = false) ∧
    (f.recurrenceType = .MONTHLY → f.dayOfMonth = 32 →
      (validateForm f).1.dayOfMonth = some "Day of month must be between 1 and 31" ∧
        (validateForm f).2 = false) ∧
    (f.recurrenceType = .CUSTOM → f.interval = 0 →
      (validateForm f).1.interval = some "Interval must be at least 1" ∧
        (validateForm f).2 = false) ∧
    (f.recurrenceType = .DAILY → trimmedEmpty f.title = false →
      (validateForm f).2 = true) := by
  refine ⟨fun hr he => ?_, fun hr he => ?_, fun hr he => ?_, fun hr ht => ?_⟩
  · constructor
    · simp [validateForm, hr, he]
    · simp [validateForm, hr, he]
  · constructor
    · simp [validateForm, hr, he]
    · simp [validateForm, hr, he]
  · constructor
    · simp [validateForm, hr, he]
    · simp [validateForm, hr, he]
  · simp [validateForm, hr, ht]

/-- C6 witness: the four rules applied at concrete forms. -/
theorem validateForm_schedule_rules_witness :
    ((validateForm ⟨"t", .WEEKLY, [], 1, 1, ""⟩).2 = false) ∧
    ((validateForm ⟨"t", .MONTHLY, [], 32, 1, ""⟩).2 = false) ∧
    ((validateForm ⟨"t", .CUSTOM, [], 1, 0, ""⟩).2 = false) ∧
    ((validateForm ⟨"t", .DAILY, [], 1, 1, ""⟩).2 = true) :=
  ⟨((validateForm_schedule_rules ⟨"t", .WEEKLY, [], 1, 1, ""⟩).1 rfl rfl).2,
    ((validateForm_schedule_rules ⟨"t", .MONTHLY, [], 32, 1, ""⟩).2.1 rfl rfl).2,
    ((validateForm_schedule_rules ⟨"t", .CUSTOM, [], 1, 0, ""⟩).2.2.1 rfl rfl).2,
    (validateForm_schedule_rules ⟨"t", .DAILY, [], 1, 1, ""⟩).2.2.2 rfl (by decide)⟩

/-- C8 counterexample: `"99:99"` is not a 24-hour `HH:MM` time, yet the
`POST /api/routines` validator accepts a `DAILY` schedule carrying it — no
rule in the chain inspects `schedule.time`. -/
theorem validateRoutineCreate_accepts_bad_time :
    isValidTime24 "99:99" = false ∧
      validateRoutineCreate "Routine" "MEDIUM"
        ⟨"DAILY", none, none, none, some "99:99"⟩ = none := by
  refine ⟨by decide, by decide⟩

/-- C8 amended: the backend schedule validator performs no check at all on
`time` — its outcome is independent of the `time` field, so no
`InvalidTimeFormat` rejection exists. -/
theorem validateRoutineCreate_ignores_time (title priority : String) (s : ScheduleReq)
    (t₁ t₂ : Option String) :
    validateRoutineCreate title priority { s with time := t₁ } =
      validateRoutineCreate title priority { s with time := t₂ } :=
  rfl

/-- C2 witness: the streak characterisation applied to a two-day history
`{day 100, day 99}` evaluated at `today = 100`. -/
theorem calculateStreak_correct_witness :
    calculateStreak [(true, 100), (true, 99), (false, 50)] 100 = 2 ∧
      IsMaxConsecRun (completionDates [(true, 100), (true, 99), (false, 50)]) 100 2 := by
  have h := (calculateStreak_correct [(true, 100), (true, 99), (false, 50)] 100).2.2
    (Or.inl (by decide))
  have hs : calculateStreak [(true, 100), (true, 99), (false, 50)] 100 = 2 := by decide
  rw [if_pos (by decide : (100 : Int) ∈ completionDates [(true, 100), (true, 99), (false, 50)]),
    hs] at h
  exact ⟨hs, h⟩

end TaskManager
